import Mathlib

/-!
Verification development for the Pump.fun chat-response pipeline.

The definitions below are a shallow embedding of the JavaScript class
`PumpFunChatApp`: comment intake (`queueComment`), subprocess-output parsing
(`parseAndQueueComments`), the sequential queue processor
(`processNextComment`), response generation (`generateResponse`), the
text-to-speech announcer (`speakResponse`) and the two HTTP handlers
(`startHandler`, `statusHandler`).  External collaborators (the `crypto` md5
digest, `JSON.parse`, the transformer model, `say.speak`, `Math.random`) are
passed in as explicit parameters, mirroring the source's calls into those
libraries.
-/

namespace PumpFun

/-! ### JavaScript string primitives, modelled on `List Char` -/

/-- `String.prototype.trim`: strip whitespace from both ends. -/
def trimChars (l : List Char) : List Char :=
  ((l.dropWhile Char.isWhitespace).reverse.dropWhile Char.isWhitespace).reverse

/-- `s.trim()` on a JavaScript string. -/
def jsTrim (s : String) : String := String.mk (trimChars s.toList)

/-- `s.toLowerCase()` (ASCII case fold, which covers every term compared). -/
def jsToLower (s : String) : String := String.mk (s.toList.map Char.toLower)

/-- `haystack.includes(needle)`: substring containment. -/
def strContains (haystack needle : String) : Bool :=
  let hl := haystack.toList
  let nl := needle.toList
  (List.range (hl.length + 1)).any (fun i => ((hl.drop i).take nl.length) == nl)

/-- `s.replace(pat, "")`: remove the first occurrence of `pat` from `s`
(the whole string is returned unchanged when `pat` does not occur). -/
def removeFirst (s pat : String) : String :=
  let sl := s.toList
  let pl := pat.toList
  match (List.range (sl.length + 1)).find? (fun i => ((sl.drop i).take pl.length) == pl) with
  | some i => String.mk (sl.take i ++ sl.drop (i + pl.length))
  | none => s

/-- `chunk.split(c)` on a character separator, as a list of chunks. -/
def splitOnChar (c : Char) : List Char → List (List Char)
  | [] => [[]]
  | x :: xs =>
      let r := splitOnChar c xs
      if x = c then [] :: r
      else
        match r with
        | [] => [[x]]
        | y :: ys => (x :: y) :: ys

/-- `mcpOutput.split('\n')`. -/
def splitNewlines (chunk : String) : List String :=
  (splitOnChar (Char.ofNat 10) chunk.toList).map String.mk

/-! ### Data model: one chat comment and the fields of `PumpFunChatApp` -/

/-- One queued chat message, as pushed by `queueComment`. -/
structure Comment where
  id : String
  user : String
  message : String
  timestamp : Nat
  deriving DecidableEq

/-- The mutable fields of the `PumpFunChatApp` instance (the `now` field is
the ambient clock read by `Date.now()`). -/
structure AppState where
  commentQueue : List Comment
  processedComments : Finset String
  isProcessing : Bool
  username : Option String
  tokenAddress : Option String
  mcpProcess : Option String
  currentlySpeaking : Bool
  ttsDisabled : Bool
  now : Nat
  deriving DecidableEq

/-- The state built by the constructor of `PumpFunChatApp`. -/
def initialState : AppState :=
  { commentQueue := []
    processedComments := ∅
    isProcessing := false
    username := none
    tokenAddress := none
    mcpProcess := none
    currentlySpeaking := false
    ttsDisabled := false
    now := 0 }

/-! ### Deduplicating intake (`queueComment`) -/

/-- The id computed by `queueComment`: the provided id when present, else
`user_` followed by the first 8 hex digits of `md5(user + ":" + message)`.
The digest function of the `crypto` library is the parameter `md5hex`.
No clock is consulted. -/
def commentId (md5hex : String → String) (user message : String)
    (providedId : Option String) : String :=
  let contentHash := String.mk ((md5hex (user ++ ":" ++ message)).toList.take 8)
  providedId.getD (user ++ "_" ++ contentHash)

/-- `queueComment(user, message, providedId)`: skip when the id was already
processed, otherwise push `{id, user, message, timestamp}` on the queue. -/
def queueComment (md5hex : String → String) (s : AppState)
    (user message : String) (providedId : Option String) : AppState :=
  let cid := commentId md5hex user message providedId
  if cid ∈ s.processedComments then s
  else
    { s with commentQueue :=
        s.commentQueue ++ [{ id := cid, user := user, message := message, timestamp := s.now }] }

/-! ### Output line parser (`parseAndQueueComments`) -/

/-- The fields of a decoded JSON record that the parser inspects
(`data.type`, `data.user`, `data.text`, `data.id`); a `none` field was
absent from the record. -/
structure JsonRecord where
  type : Option String
  user : Option String
  text : Option String
  id : Option String

/-- `data.id || null`: a missing or empty id is replaced by `null`. -/
def jsId : Option String → Option String
  | some i => if i = "" then none else some i
  | none => none

/-- The literal head of the first regular expression,
`New message from ([^:]+):\s*(.+)`. -/
def newMsgLit : String := "New message from "

/-- Split a character list at its first colon; `none` when no colon occurs. -/
def firstColonSplit : List Char → Option (List Char × List Char)
  | [] => none
  | c :: rest =>
      if c = ':' then some ([], rest)
      else
        match firstColonSplit rest with
        | some (b, a) => some (c :: b, a)
        | none => none

/-- `\s*(.+)` applied to the text after the colon: the greedy whitespace run
backtracks just enough to leave at least one character for the final group.
Fails when nothing follows the colon. -/
def tailGroup (after : List Char) : Option String :=
  if after = [] then none
  else
    let k := min (after.takeWhile Char.isWhitespace).length (after.length - 1)
    some (String.mk (after.drop k))

/-- One attempt of `New message from ([^:]+):\s*(.+)` anchored at the head of
`l`: the literal, then a non-empty colon-free run, a colon, and the tail
group. -/
def matchNewMsgAt (l : List Char) : Option (String × String) :=
  if l.take newMsgLit.length == newMsgLit.toList then
    let rest := l.drop newMsgLit.length
    match firstColonSplit rest with
    | some (user, after) =>
        if user = [] then none
        else
          match tailGroup after with
          | some msg => some (String.mk user, msg)
          | none => none
    | none => none
  else none

/-- The regex engine's left-to-right scan for `line.match(/New message from
([^:]+):\s*(.+)/)`: the first start position where the pattern matches. -/
def scanNewMsg : List Char → Option (String × String)
  | [] => none
  | l :: rest =>
      match matchNewMsgAt (l :: rest) with
      | some r => some r
      | none => scanNewMsg rest

/-- `line.match(/New message from ([^:]+):\s*(.+)/)`, returning the two
capture groups. -/
def newMessageMatch (line : String) : Option (String × String) :=
  scanNewMsg line.toList

/-- `\w`: ASCII letters, digits and underscore. -/
def isWordChar (c : Char) : Bool := c.isAlphanum || c = '_'

/-- One attempt of `(\w+):\s*(.+)` anchored at the head of `l`: the greedy
word run must be non-empty and be followed directly by a colon, then the
tail group. -/
def matchWordColonAt (l : List Char) : Option (String × String) :=
  let run := l.takeWhile isWordChar
  if run = [] then none
  else
    match l.drop run.length with
    | ':' :: after =>
        match tailGroup after with
        | some msg => some (String.mk run, msg)
        | none => none
    | _ => none

/-- The regex engine's left-to-right scan for `line.match(/(\w+):\s*(.+)/)`. -/
def scanWordColon : List Char → Option (String × String)
  | [] => none
  | l :: rest =>
      match matchWordColonAt (l :: rest) with
      | some r => some r
      | none => scanWordColon rest

/-- `line.match(/(\w+):\s*(.+)/)`, returning the two capture groups. -/
def wordColonMatch (line : String) : Option (String × String) :=
  scanWordColon line.toList

/-- The body of the `forEach` over lines: blank lines are skipped; a line is
first decoded as JSON (`jsonParse` stands for `JSON.parse`, `none` meaning
the parse threw); on a successful decode a well-formed message record is
queued and nothing else happens; on a parse failure the two regular
expressions are tried in order. -/
def processLine (jsonParse : String → Option JsonRecord) (md5hex : String → String)
    (st : AppState) (line : String) : AppState :=
  if jsTrim line = "" then st
  else
    match jsonParse line with
    | some data =>
        match data.user, data.text with
        | some u, some t =>
            if data.type == some "message" && u != "" && t != "" then
              queueComment md5hex st u t (jsId data.id)
            else st
        | _, _ => st
    | none =>
        match newMessageMatch line with
        | some (user, message) =>
            queueComment md5hex st (jsTrim user) (jsTrim message) none
        | none =>
            if strContains line "message:" || strContains line "chat:"
                || strContains line ":" then
              match wordColonMatch line with
              | some (user, message) =>
                  queueComment md5hex st user (jsTrim message) none
              | none => st
            else st

/-- `parseAndQueueComments(mcpOutput)`: split the chunk on newlines and
process each line in order. -/
def parseAndQueueComments (jsonParse : String → Option JsonRecord)
    (md5hex : String → String) (s : AppState) (mcpOutput : String) : AppState :=
  (splitNewlines mcpOutput).foldl (processLine jsonParse md5hex) s

/-! ### Response generator (`generateResponse`) -/

/-- The generic canned pool (`funnyResponses`), with the sender's name
interpolated. -/
def funnyResponses (user : String) : List String :=
  [user ++ ", you're absolutely right! I'm just here vibing in the digital realm 💫",
   "Hey " ++ user ++ "! Welcome to the future where AI avatars actually respond - wild times! 🚀",
   user ++ ", I see you there! This chat bot has evolved beyond your wildest dreams 🤖✨",
   "Yo " ++ user ++ "! Thanks for testing me out - I promise I'm more fun than your average bot 😎",
   user ++ ", you've discovered the secret - I'm actually listening! Mind = blown 🧠💥",
   "What's up " ++ user ++ "! You found the AI that actually talks back - plot twist! 🎭",
   user ++ ", confirmed: I can read, I can speak, and I probably think crypto memes are funny 📈😂",
   "Hey " ++ user ++ "! Breaking news: Your AI avatar is now online and slightly sarcastic 🗞️",
   user ++ ", you've unlocked the achievement: \"Made an AI Respond\" - legendary! 🏆",
   "Greetings " ++ user ++ "! Your local cyberpunk AI reporting for duty in this digital chaos 🌆⚡"]

/-- The domain-flavoured canned pool (`cryptoResponses`). -/
def cryptoResponses (user : String) : List String :=
  [user ++ ", to the moon? More like to the metaverse! 🌙🚀",
   user ++ ", diamond hands meet digital soul - what could go wrong? 💎🤖",
   user ++ ", when DeFi meets AI - this is what peak innovation looks like! 🔥",
   user ++ ", hodling conversations now, not just coins! 💰💬",
   user ++ ", probably nothing... except an AI that actually gets crypto culture! 📊⚡"]

/-- The fixed crypto-term list checked against the message. -/
def cryptoTerms : List String :=
  ["moon", "diamond", "hodl", "pump", "gem", "ape", "wagmi", "gm", "probably nothing"]

/-- `cryptoTerms.some(term => message.toLowerCase().includes(term.toLowerCase()))`. -/
def containsCryptoTerms (message : String) : Bool :=
  cryptoTerms.any (fun term => strContains (jsToLower message) (jsToLower term))

/-- `containsCrypto ? cryptoResponses : funnyResponses`. -/
def selectPool (c : Comment) : List String :=
  if containsCryptoTerms c.message then cryptoResponses c.user else funnyResponses c.user

/-- `responsePool[Math.floor(Math.random() * responsePool.length)]`; the
random draw is the parameter `rnd`, reduced into range. -/
def selectedResponse (c : Comment) (rnd : Nat) : String :=
  (selectPool c).getD (rnd % (selectPool c).length) ""

/-- `generateResponse(comment)`.  `enhance` stands for `this.textGenerator`:
`none` when the model failed to load; otherwise a call that either throws
(`Except.error`) or returns the model's `generated_text`.  The enhanced text
is the model output with the prompt removed and trimmed; it replaces the
canned choice only when its length is plausible. -/
def generateResponse (enhance : Option (String → Except String String))
    (rnd : Nat) (c : Comment) : String :=
  let selected := selectedResponse c rnd
  match enhance with
  | some textGenerator =>
      let enhancementPrompt :=
        "Make this funnier and more engaging: \"" ++ selected ++ "\""
      match textGenerator enhancementPrompt with
      | Except.ok generated =>
          let enhanced := jsTrim (removeFirst generated enhancementPrompt)
          if enhanced ≠ "" ∧ 10 < enhanced.length ∧ enhanced.length < 150 then enhanced
          else selected
      | Except.error _ => selected
  | none => selected

/-! ### Speech announcer (`speakResponse`) -/

/-- The hard timeout armed around `say.speak`, in milliseconds. -/
def ttsTimeoutMs : Nat := 5000

/-- The behaviour of the external `say.speak` call on one invocation:
it throws synchronously, or invokes its callback `t` milliseconds later
(with `some` error or without), or never invokes it. -/
inductive SayBehavior where
  | throws
  | callbackAt (t : Nat) (err : Option String)
  | never
  deriving DecidableEq

/-- The observable outcome of one `speakResponse` call: the state when its
promise resolved, whether `resolve` was reached, how many milliseconds after
the call it fired, and whether `say.speak` was invoked at all. -/
structure SpeakResult where
  state : AppState
  resolved : Bool
  resolveTime : Nat
  attempted : Bool
  deriving DecidableEq

/-- `speakResponse(response, originalComment)`.  Sets `currentlySpeaking` on
entry; when TTS is already disabled it resolves immediately without touching
`say`; otherwise it arms the 5-second timer and calls `say.speak`, whose
behaviour is the parameter `sayB`.  A callback that loses the race against
the timer cannot re-enable TTS or un-resolve the promise. -/
def speakResponse (sayB : SayBehavior) (s : AppState) (response : String) :
    SpeakResult :=
  let s1 : AppState := { s with currentlySpeaking := true }
  if s1.ttsDisabled then
    { state := { s1 with currentlySpeaking := false }
      resolved := true, resolveTime := 0, attempted := false }
  else
    match sayB with
    | SayBehavior.throws =>
        { state := { s1 with ttsDisabled := true, currentlySpeaking := false }
          resolved := true, resolveTime := 0, attempted := true }
    | SayBehavior.never =>
        { state := { s1 with ttsDisabled := true, currentlySpeaking := false }
          resolved := true, resolveTime := ttsTimeoutMs, attempted := true }
    | SayBehavior.callbackAt t err =>
        if t < ttsTimeoutMs then
          match err with
          | some _ =>
              { state := { s1 with ttsDisabled := true, currentlySpeaking := false }
                resolved := true, resolveTime := t, attempted := true }
          | none =>
              { state := { s1 with currentlySpeaking := false }
                resolved := true, resolveTime := t, attempted := true }
        else
          { state := { s1 with ttsDisabled := true, currentlySpeaking := false }
            resolved := true, resolveTime := ttsTimeoutMs, attempted := true }

/-! ### Sequential processor (`processNextComment`) -/

/-- `processNextComment()`.  `gen` stands for the awaited
`this.generateResponse(comment)` under JavaScript exception semantics
(`Except.error` = the promise rejected); its rejection is caught by the
`try`/`catch` and skips the announcement.  The `finally` clause clears
`isProcessing` on every path. -/
def processNextComment (gen : Comment → Except String String)
    (sayB : SayBehavior) (s : AppState) : AppState :=
  if s.isProcessing then s
  else
    match s.commentQueue with
    | [] => s
    | comment :: rest =>
        let s1 : AppState := { s with isProcessing := true, commentQueue := rest }
        let s2 : AppState :=
          { s1 with processedComments := insert comment.id s1.processedComments }
        let s3 : AppState :=
          match gen comment with
          | Except.error _ => s2
          | Except.ok response => (speakResponse sayB s2 response).state
        { s3 with isProcessing := false }

/-! ### HTTP endpoints (`setupExpress`) and subprocess start -/

/-- A side effect of the `/start` handler on the outside world. -/
inductive Effect where
  | kill
  | spawn (token : String)
  | startProcessor
  deriving DecidableEq

/-- The request body of `POST /start`; absent fields are `none`. -/
structure StartRequest where
  username : Option String
  tokenAddress : Option String

/-- `startPumpFunChat()`: kill the previous subprocess when one exists, then
spawn `pump-fun-chat-mcp` for the stored token and start the queue
processor. -/
def startPumpFunChat (s : AppState) : AppState × List Effect :=
  let kills := if s.mcpProcess.isSome then [Effect.kill] else []
  let token := s.tokenAddress.getD ""
  ({ s with mcpProcess := some token },
   kills ++ [Effect.spawn token, Effect.startProcessor])

/-- The `POST /start` handler: default the username to `"AI Avatar"`, reject
a missing or empty token address with status 400, otherwise store both
fields, restart the subprocess and answer 200. -/
def startHandler (s : AppState) (req : StartRequest) :
    AppState × Nat × List Effect :=
  let username := req.username.getD "AI Avatar"
  match req.tokenAddress with
  | none => (s, 400, [])
  | some tok =>
      if tok = "" then (s, 400, [])
      else
        let s1 : AppState :=
          { s with username := some username, tokenAddress := some tok }
        let r := startPumpFunChat s1
        (r.1, 200, r.2)

/-- The body answered by `GET /status`. -/
structure StatusResponse where
  queueLength : Nat
  isProcessing : Bool
  currentlySpeaking : Bool
  processedCount : Nat
  deriving DecidableEq

/-- The `GET /status` handler. -/
def statusHandler (s : AppState) : StatusResponse :=
  { queueLength := s.commentQueue.length
    isProcessing := s.isProcessing
    currentlySpeaking := s.currentlySpeaking
    processedCount := s.processedComments.card }

/-- A one-element-queue fixture used to exercise the processor. -/
def initialQueued : AppState :=
  { initialState with commentQueue := [⟨"a_x", "a", "b", 0⟩] }

/-- A fixture in which TTS has already been disabled. -/
def disabledState : AppState :=
  { initialState with ttsDisabled := true }

/-- A fixture in which a subprocess is already running. -/
def runningState : AppState :=
  { initialState with mcpProcess := some "oldtoken" }

/-! ### Helper lemmas -/

lemma append_ne_empty (a b : String) (hb : b ≠ "") : a ++ b ≠ "" := by
  intro h
  apply hb
  have hd := congrArg String.data h
  rw [String.data_append] at hd
  exact String.ext (List.append_eq_nil.mp hd).2

lemma pool_mem_ne_empty (u r : String)
    (h : r ∈ funnyResponses u ++ cryptoResponses u) : r ≠ "" := by
  simp only [funnyResponses, cryptoResponses, List.mem_append, List.mem_cons,
    List.mem_singleton, List.not_mem_nil, or_false] at h
  rcases h with (rfl|rfl|rfl|rfl|rfl|rfl|rfl|rfl|rfl|rfl)|(rfl|rfl|rfl|rfl|rfl) <;>
    exact append_ne_empty _ _ (by decide)

lemma selectedResponse_mem (c : Comment) (rnd : Nat) :
    selectedResponse c rnd ∈ funnyResponses c.user ++ cryptoResponses c.user := by
  unfold selectedResponse selectPool
  by_cases hc : containsCryptoTerms c.message = true
  · have hlen : (cryptoResponses c.user).length = 5 := by simp [cryptoResponses]
    rw [if_pos hc, List.getD_eq_getElem _ _ (by rw [hlen]; exact Nat.mod_lt _ (by omega))]
    exact List.mem_append_right _ (List.getElem_mem _)
  · have hb : containsCryptoTerms c.message = false := by
      cases h : containsCryptoTerms c.message
      · rfl
      · exact absurd h hc
    have hlen : (funnyResponses c.user).length = 10 := by simp [funnyResponses]
    rw [if_neg (by simp [hb]),
      List.getD_eq_getElem _ _ (by rw [hlen]; exact Nat.mod_lt _ (by omega))]
    exact List.mem_append_left _ (List.getElem_mem _)

/-! ### Claim theorems -/

/-- C1: for two chat events with equal `(user, text)` and no provided id,
intake (at any two app states, hence at any two capture times) assigns the
same id, namely `commentId md5hex user text none`, a function that consults
no clock. -/
theorem intake_id_time_free (md5hex : String → String) (s₁ s₂ : AppState)
    (u t : String)
    (h₁ : commentId md5hex u t none ∉ s₁.processedComments)
    (h₂ : commentId md5hex u t none ∉ s₂.processedComments) :
    ((queueComment md5hex s₁ u t none).commentQueue.getLast?.map Comment.id
        = some (commentId md5hex u t none)) ∧
    ((queueComment md5hex s₂ u t none).commentQueue.getLast?.map Comment.id
        = some (commentId md5hex u t none)) := by
  constructor <;>
    simp [queueComment, h₁, h₂, List.getLast?_concat]

theorem intake_id_time_free_witness :
    (commentId (fun _ => "abcdef0123456789") "alice" "gm" none
        ∉ initialState.processedComments) ∧
    ((queueComment (fun _ => "abcdef0123456789") initialState "alice" "gm"
        none).commentQueue.getLast?.map Comment.id
      = some (commentId (fun _ => "abcdef0123456789") "alice" "gm" none)) ∧
    ((queueComment (fun _ => "abcdef0123456789")
        { initialState with now := 777 } "alice" "gm"
        none).commentQueue.getLast?.map Comment.id
      = some (commentId (fun _ => "abcdef0123456789") "alice" "gm" none)) := by
  refine ⟨by decide, ?_⟩
  exact intake_id_time_free (fun _ => "abcdef0123456789") initialState
    { initialState with now := 777 } "alice" "gm" (by decide) (by decide)

/-- C2: `queueComment` is a no-op exactly when the computed id is in the
processed set; otherwise it appends the event at the queue tail.  Because
only processed history is checked, the same event enqueued twice before
processing is appended twice. -/
theorem enqueue_dedup_spec (md5hex : String → String) (s : AppState)
    (u t : String) (pid : Option String) :
    (commentId md5hex u t pid ∈ s.processedComments →
        queueComment md5hex s u t pid = s) ∧
    (commentId md5hex u t pid ∉ s.processedComments →
        (queueComment md5hex s u t pid).commentQueue
            = s.commentQueue ++ [⟨commentId md5hex u t pid, u, t, s.now⟩] ∧
        (queueComment md5hex (queueComment md5hex s u t pid) u t
            pid).commentQueue
            = s.commentQueue ++ [⟨commentId md5hex u t pid, u, t, s.now⟩,
                                 ⟨commentId md5hex u t pid, u, t, s.now⟩]) := by
  refine ⟨fun h => ?_, fun h => ⟨?_, ?_⟩⟩
  · simp [queueComment, h]
  · simp [queueComment, h]
  · simp [queueComment, h]

theorem enqueue_dedup_spec_witness :
    ("a_abcdef01" ∉ initialState.processedComments) ∧
    ((queueComment (fun _ => "abcdef0123456789") initialState "a" "b"
        none).commentQueue
      = [⟨"a_abcdef01", "a", "b", 0⟩]) ∧
    ((queueComment (fun _ => "abcdef0123456789")
        (queueComment (fun _ => "abcdef0123456789") initialState "a" "b" none)
        "a" "b" none).commentQueue
      = [⟨"a_abcdef01", "a", "b", 0⟩, ⟨"a_abcdef01", "a", "b", 0⟩]) := by
  have h := (enqueue_dedup_spec (fun _ => "abcdef0123456789") initialState
    "a" "b" none).2 (by decide)
  refine ⟨by decide, ?_, ?_⟩
  · simpa using h.1
  · simpa using h.2

lemma speakResponse_queue (b : SayBehavior) (st : AppState) (r : String) :
    (speakResponse b st r).state.commentQueue = st.commentQueue := by
  unfold speakResponse
  cases b <;> dsimp only <;> (repeat' split) <;> rfl

lemma speakResponse_processed (b : SayBehavior) (st : AppState) (r : String) :
    (speakResponse b st r).state.processedComments = st.processedComments := by
  unfold speakResponse
  cases b <;> dsimp only <;> (repeat' split) <;> rfl

/-- C3: a tick that finds the processor Busy changes nothing, so no
two processing runs ever overlap; an empty queue also changes nothing;
otherwise exactly the head event is dequeued, its id is in the processed set
on every outcome of the generation call (it is added before generation,
including when generation rejects), the event is never re-queued, and the
processor is Idle again afterwards whatever the generation or announcement
did. -/
theorem process_tick_spec (gen : Comment → Except String String)
    (sayB : SayBehavior) (s : AppState) :
    (s.isProcessing = true → processNextComment gen sayB s = s) ∧
    (s.commentQueue = [] → processNextComment gen sayB s = s) ∧
    (∀ c rest, s.isProcessing = false → s.commentQueue = c :: rest →
        (processNextComment gen sayB s).isProcessing = false ∧
        (processNextComment gen sayB s).commentQueue = rest ∧
        c.id ∈ (processNextComment gen sayB s).processedComments) := by
  refine ⟨fun hb => ?_, fun hq => ?_, fun c rest hb hq => ?_⟩
  · simp [processNextComment, hb]
  · cases hp : s.isProcessing <;> simp [processNextComment, hp, hq]
  · unfold processNextComment
    rw [hb, hq]
    simp only [Bool.false_eq_true, if_false]
    cases hg : gen c with
    | error e => simp
    | ok response =>
        simp [speakResponse_queue, speakResponse_processed]

theorem process_tick_spec_witness :
    (initialQueued.isProcessing = false) ∧
    (initialQueued.commentQueue = [⟨"a_x", "a", "b", 0⟩]) ∧
    ((processNextComment (fun _ => Except.error "model crashed")
        SayBehavior.never initialQueued).isProcessing = false ∧
     (processNextComment (fun _ => Except.error "model crashed")
        SayBehavior.never initialQueued).commentQueue = [] ∧
     "a_x" ∈ (processNextComment (fun _ => Except.error "model crashed")
        SayBehavior.never initialQueued).processedComments) := by
  refine ⟨rfl, rfl, ?_⟩
  exact (process_tick_spec (fun _ => Except.error "model crashed")
    SayBehavior.never initialQueued).2.2 ⟨"a_x", "a", "b", 0⟩ [] rfl rfl

/-- C4: `generateResponse` returns a non-empty string for every event and
every behaviour of the optional enhancement backend (absent, returning
anything, or always throwing), and when the backend always throws the result
is one of the canned pool strings built around the sender's name. -/
theorem generate_total_nonempty (enhance : Option (String → Except String String))
    (rnd : Nat) (c : Comment) :
    generateResponse enhance rnd c ≠ "" ∧
    (∀ err : String,
        generateResponse (some (fun _ => Except.error err)) rnd c
          ∈ funnyResponses c.user ++ cryptoResponses c.user) := by
  constructor
  · have hsel : selectedResponse c rnd ≠ "" :=
      pool_mem_ne_empty c.user _ (selectedResponse_mem c rnd)
    unfold generateResponse
    cases enhance with
    | none => exact hsel
    | some textGenerator =>
        dsimp only
        cases textGenerator ("Make this funnier and more engaging: \""
            ++ selectedResponse c rnd ++ "\"") with
        | error e => exact hsel
        | ok generated =>
            dsimp only
            split
            · next h => exact h.1
            · exact hsel
  · intro err
    simpa [generateResponse] using selectedResponse_mem c rnd

/-- C5: when TTS is already disabled, `speakResponse` attempts no audio and
resolves immediately with the flag still set; and the announcer stays
enabled exactly when it was enabled and the synthesis callback came back
without error before the timeout — every other behaviour (synchronous
throw, error callback, late callback, no callback) disables it, and nothing
ever re-enables it. -/
theorem announcer_disable_monotone (b : SayBehavior) (s : AppState) (r : String) :
    (s.ttsDisabled = true →
        (speakResponse b s r).state = { s with currentlySpeaking := false } ∧
        (speakResponse b s r).attempted = false ∧
        (speakResponse b s r).resolveTime = 0) ∧
    ((speakResponse b s r).state.ttsDisabled = false ↔
        s.ttsDisabled = false ∧
          ∃ t, b = SayBehavior.callbackAt t none ∧ t < ttsTimeoutMs) := by
  by_cases hd : s.ttsDisabled = true
  · constructor
    · intro _
      refine ⟨?_, ?_, ?_⟩ <;> simp [speakResponse, hd]
    · simp [speakResponse, hd]
  · have hd' : s.ttsDisabled = false := by
      cases h : s.ttsDisabled
      · rfl
      · exact absurd h hd
    constructor
    · intro h
      exact absurd h hd
    · cases b with
      | throws => simp [speakResponse, hd']
      | never => simp [speakResponse, hd']
      | callbackAt t err =>
          by_cases ht : t < ttsTimeoutMs
          · cases err with
            | none => simp [speakResponse, hd', ht]
            | some e => simp [speakResponse, hd', ht]
          · simp [speakResponse, hd', ht]
            intro _
            omega

theorem announcer_disable_monotone_witness :
    (disabledState.ttsDisabled = true) ∧
    ((speakResponse (SayBehavior.callbackAt 1 none) disabledState "hi").state
        = { disabledState with currentlySpeaking := false } ∧
     (speakResponse (SayBehavior.callbackAt 1 none) disabledState "hi").attempted
        = false ∧
     (speakResponse (SayBehavior.callbackAt 1 none) disabledState "hi").resolveTime
        = 0) := by
  exact ⟨rfl, (announcer_disable_monotone (SayBehavior.callbackAt 1 none)
    disabledState "hi").1 rfl⟩

/-- C6: every `speakResponse` call resolves, no later than the 5-second
timeout; when the callback never arrives the timer fires, disabling TTS and
resolving at exactly the timeout; a callback that arrives only at or after
the timeout likewise leaves TTS disabled and the promise already resolved at
the timeout. -/
theorem announce_completion_bounded (b : SayBehavior) (s : AppState)
    (r : String) :
    (speakResponse b s r).resolved = true ∧
    (speakResponse b s r).resolveTime ≤ ttsTimeoutMs ∧
    (b = SayBehavior.never → s.ttsDisabled = false →
        (speakResponse b s r).state.ttsDisabled = true ∧
        (speakResponse b s r).resolveTime = ttsTimeoutMs) ∧
    (∀ t err, b = SayBehavior.callbackAt t err → ttsTimeoutMs ≤ t →
        s.ttsDisabled = false →
        (speakResponse b s r).state.ttsDisabled = true ∧
        (speakResponse b s r).resolveTime = ttsTimeoutMs) := by
  refine ⟨?_, ?_, ?_, ?_⟩
  · unfold speakResponse
    cases b <;> dsimp only <;> (repeat' split) <;> rfl
  · unfold speakResponse
    cases b <;> dsimp only <;> (repeat' split) <;>
      simp_all [ttsTimeoutMs] <;> omega
  · rintro rfl hd
    simp [speakResponse, hd]
  · rintro t err rfl ht hd
    have ht' : ¬ t < ttsTimeoutMs := by omega
    simp [speakResponse, hd, ht']

theorem announce_completion_bounded_witness :
    ((speakResponse SayBehavior.never initialState "hi").resolved = true) ∧
    ((speakResponse SayBehavior.never initialState "hi").resolveTime
        ≤ ttsTimeoutMs) ∧
    ((speakResponse SayBehavior.never initialState "hi").state.ttsDisabled
        = true) ∧
    ((speakResponse SayBehavior.never initialState "hi").resolveTime
        = ttsTimeoutMs) := by
  have h := announce_completion_bounded SayBehavior.never initialState "hi"
  exact ⟨h.1, h.2.1, h.2.2.1 rfl rfl⟩

/-- C10: after any `speakResponse` call completes — disabled, timeout, error
callback, success or synchronous throw — the status endpoint reports
`currentlySpeaking = false`, the completion promise has resolved, and the
result never depends on the incoming value of the flag because the call
overwrites it on entry. -/
theorem speaking_flag_reset (b : SayBehavior) (s : AppState) (r : String) :
    (statusHandler (speakResponse b s r).state).currentlySpeaking = false ∧
    (speakResponse b s r).resolved = true ∧
    (∀ v : Bool, speakResponse b { s with currentlySpeaking := v } r
        = speakResponse b s r) := by
  refine ⟨?_, ?_, fun v => rfl⟩
  · unfold statusHandler speakResponse
    cases b <;> dsimp only <;> (repeat' split) <;> rfl
  · unfold speakResponse
    cases b <;> dsimp only <;> (repeat' split) <;> rfl

lemma processLine_skip (jp : String → Option JsonRecord)
    (md5hex : String → String) (st : AppState) (bad : String)
    (hjson : jp bad = none) (hnm : newMessageMatch bad = none)
    (hwc : wordColonMatch bad = none) :
    processLine jp md5hex st bad = st := by
  unfold processLine
  by_cases hb : jsTrim bad = ""
  · simp [hb]
  · rw [if_neg hb, hjson, hnm, hwc]
    dsimp only
    split <;> rfl

/-- C7: a line on which every decoder fails — the JSON decode throws and
neither regular expression matches — contributes nothing and removes
nothing: parsing a chunk whose line list is `pre ++ bad :: post` gives
exactly the fold over `pre ++ post`, so every line after the malformed one
is still processed. -/
theorem parse_line_failure_isolated (jp : String → Option JsonRecord)
    (md5hex : String → String) (s : AppState) (chunk : String)
    (pre post : List String) (bad : String)
    (hsplit : splitNewlines chunk = pre ++ bad :: post)
    (hjson : jp bad = none) (hnm : newMessageMatch bad = none)
    (hwc : wordColonMatch bad = none) :
    parseAndQueueComments jp md5hex s chunk
      = (pre ++ post).foldl (processLine jp md5hex) s := by
  unfold parseAndQueueComments
  rw [hsplit, List.foldl_append, List.foldl_append, List.foldl_cons,
    processLine_skip jp md5hex _ bad hjson hnm hwc]

theorem parse_line_failure_isolated_witness :
    (splitNewlines "a: hi\nzzz\nb: yo" = ["a: hi"] ++ "zzz" :: ["b: yo"]) ∧
    (newMessageMatch "zzz" = none) ∧
    (wordColonMatch "zzz" = none) ∧
    (parseAndQueueComments (fun _ => none) (fun _ => "0123456789abcdef")
        initialState "a: hi\nzzz\nb: yo"
      = (["a: hi"] ++ ["b: yo"]).foldl
          (processLine (fun _ => none) (fun _ => "0123456789abcdef"))
          initialState) := by
  refine ⟨by decide, by decide, by decide, ?_⟩
  exact parse_line_failure_isolated (fun _ => none)
    (fun _ => "0123456789abcdef") initialState "a: hi\nzzz\nb: yo"
    ["a: hi"] ["b: yo"] "zzz" (by decide) rfl (by decide) (by decide)

/-- C8: the single line `New message from alice: gm wagmi` (on which
`JSON.parse` throws) yields exactly one queued event with user `alice` and
text `gm wagmi`; `wagmi` is in the crypto-term list, the classifier fires on
the text, and the generator's pool selection for such an event is the
crypto pool. -/
theorem parse_classify_scenario (jp : String → Option JsonRecord)
    (md5hex : String → String)
    (hjp : jp "New message from alice: gm wagmi" = none) :
    ((parseAndQueueComments jp md5hex initialState
        "New message from alice: gm wagmi").commentQueue.map
        (fun c => (c.user, c.message)) = [("alice", "gm wagmi")]) ∧
    ("wagmi" ∈ cryptoTerms) ∧
    (containsCryptoTerms "gm wagmi" = true) ∧
    (∀ i ts, selectPool ⟨i, "alice", "gm wagmi", ts⟩
        = cryptoResponses "alice") := by
  refine ⟨?_, by decide, by decide, fun i ts => ?_⟩
  · have hsplit : splitNewlines "New message from alice: gm wagmi"
        = ["New message from alice: gm wagmi"] := by decide
    have hnm : newMessageMatch "New message from alice: gm wagmi"
        = some ("alice", "gm wagmi") := by decide
    unfold parseAndQueueComments
    rw [hsplit, List.foldl_cons, List.foldl_nil]
    unfold processLine
    rw [if_neg (by decide : ¬ jsTrim "New message from alice: gm wagmi" = ""),
      hjp, hnm]
    show (queueComment md5hex initialState (jsTrim "alice")
        (jsTrim "gm wagmi") none).commentQueue.map _ = _
    rw [show jsTrim "alice" = "alice" from by decide,
      show jsTrim "gm wagmi" = "gm wagmi" from by decide]
    unfold queueComment
    rw [if_neg (by simp [initialState])]
    simp [initialState]
  · unfold selectPool
    have hc : containsCryptoTerms "gm wagmi" = true := by decide
    simp [hc]

theorem parse_classify_scenario_witness :
    ((parseAndQueueComments (fun _ => none) (fun _ => "0123456789abcdef")
        initialState "New message from alice: gm wagmi").commentQueue.map
        (fun c => (c.user, c.message)) = [("alice", "gm wagmi")]) ∧
    ("wagmi" ∈ cryptoTerms) ∧
    (containsCryptoTerms "gm wagmi" = true) ∧
    (selectPool ⟨"any", "alice", "gm wagmi", 3⟩ = cryptoResponses "alice") := by
  have h := parse_classify_scenario (fun _ => none)
    (fun _ => "0123456789abcdef") rfl
  exact ⟨h.1, h.2.1, h.2.2.1, h.2.2.2 "any" 3⟩

/-- C9: `POST /start` with a missing (or empty, hence falsy) token address
answers 400 and leaves the state — in particular the stored username and
token address — untouched and spawns nothing; with a token address it
answers 200, stores the token and the (defaulted) username, kills the prior
subprocess exactly when one exists before spawning the new one, and starts
the queue processor. -/
theorem start_endpoint_spec (s : AppState) (req : StartRequest) :
    ((req.tokenAddress = none ∨ req.tokenAddress = some "") →
        startHandler s req = (s, 400, [])) ∧
    (∀ tok, req.tokenAddress = some tok → tok ≠ "" →
        (startHandler s req).2.1 = 200 ∧
        (startHandler s req).2.2
            = (if s.mcpProcess.isSome then [Effect.kill] else [])
              ++ [Effect.spawn tok, Effect.startProcessor] ∧
        (startHandler s req).1.tokenAddress = some tok ∧
        (startHandler s req).1.username
            = some (req.username.getD "AI Avatar")) := by
  constructor
  · rintro (h | h) <;> simp [startHandler, h]
  · rintro tok h htok
    refine ⟨?_, ?_, ?_, ?_⟩ <;>
      simp [startHandler, h, htok, startPumpFunChat]

theorem start_endpoint_spec_witness :
    (startHandler runningState { username := none, tokenAddress := none }
        = (runningState, 400, [])) ∧
    ((startHandler runningState
        { username := none, tokenAddress := some "tok123" }).2.1 = 200) ∧
    ((startHandler runningState
        { username := none, tokenAddress := some "tok123" }).2.2
      = [Effect.kill, Effect.spawn "tok123", Effect.startProcessor]) ∧
    ((startHandler runningState
        { username := none, tokenAddress := some "tok123" }).1.username
      = some "AI Avatar") := by
  have h400 := (start_endpoint_spec runningState
    { username := none, tokenAddress := none }).1 (Or.inl rfl)
  have h200 := (start_endpoint_spec runningState
    { username := none, tokenAddress := some "tok123" }).2 "tok123" rfl
    (by decide)
  refine ⟨h400, h200.1, ?_, h200.2.2.2⟩
  have := h200.2.1
  simpa [runningState, initialState] using this

end PumpFun
